import Mathlib

/-!
Verification development for the yat-extension-types contract
(src/src/index.ts) and the Extension Host Runtime that the accompanying
specification requires a conforming host to implement on top of it.

The TypeScript source is a pure type-declaration file.  Its interfaces are
embedded below as Lean structures (field for field, in source order).  The
runtime components the specification describes (Hook Invocation Pipeline,
Visibility/Enablement Evaluator, Adapter Lifecycle Controller, Extension
Package Loader) are not present in the source tree; every definition for
them below is explicitly marked `Modelled from the spec:` and follows the
specification text.

Conventions of the embedding:
* a TypeScript callback that may throw is embedded as a Lean function into
  `HookOutcome α`: it either returns a value or throws a reason string;
* TypeScript `number` is embedded as `Int` (the claims under study only
  concern integral codes);
* TypeScript string unions with an open escape hatch (such as
  `Tunnel.status`) are embedded as `String`;
* `any`-typed payload slots that the core never inspects (component
  descriptors, `data`, extension-defined attributes) are embedded as
  opaque-to-the-core placeholders: `Option Unit` for component slots,
  `Option String` for `data`, and a string association list for the open
  attribute map, since the core only forwards them.
-/

namespace YatExt

/-- Outcome of invoking a JavaScript callback: either a returned value or a
thrown (or rejected) failure carrying its reason string. -/
inductive HookOutcome (α : Type) where
  | ok (a : α)
  | throws (msg : String)
deriving Repr, DecidableEq

/-- Tunnel (src/src/index.ts lines 15-36).  The `type` field is a TS
`number` whose doc comment enumerates the codes 1: HTTP, 2: HTTPS, 3: TCP,
4: UDP, 5: WireGuard; `status` is the open union
`'active' | 'stopped' | 'inactive' | string`; the trailing index signature
`[key: string]: any` is the open attribute map `extra`. -/
structure Tunnel where
  id : String
  name : String
  type : Int
  status : String
  localPort : Option Int
  remotePort : Option Int
  remoteUrl : Option String
  appId : Option String
  createdAt : Option String
  extra : List (String × String)
deriving Repr, DecidableEq

/-- AppHookContext (src/src/index.ts lines 79-92): the immutable snapshot
passed to hooks.  `emit` drops its `any[]` argument list and `t` keeps its
`(key, fallback)` shape. -/
structure AppHookContext where
  tunnel : Tunnel
  emit : Option (String → Unit)
  t : Option (String → Option String → String)
  locale : Option String
  isDark : Option Bool
  themeMode : Option String

/-- AppActionResult (src/src/index.ts lines 97-104): `{success, message?,
data?}`, with the `any`-typed `data` embedded opaquely. -/
structure AppActionResult where
  success : Bool
  message : Option String
  data : Option String
deriving Repr, DecidableEq

/-- AppTab (src/src/index.ts lines 109-122).  The `component` and
`adapter` slots are opaque to the core; the optional `visible` predicate
is a callback on a tunnel snapshot that may throw. -/
structure AppTab where
  key : String
  label : String
  icon : String
  component : Option Unit
  adapter : Option Unit
  visible : Option (Tunnel → HookOutcome Bool)

/-- AppAction (src/src/index.ts lines 127-140), with optional `visible`
and `disabled` predicates that may throw. -/
structure AppAction where
  key : String
  label : String
  icon : String
  variant : Option String
  visible : Option (Tunnel → HookOutcome Bool)
  disabled : Option (Tunnel → HookOutcome Bool)

/-- AppHooks (src/src/index.ts lines 145-174): the sparse map of the fixed
recognized lifecycle hooks.  The open index signature for custom actions
is omitted because, per the spec, custom keys are never auto-invoked by
the core. -/
structure AppHooks where
  onBeforeStart : Option (AppHookContext → HookOutcome Unit)
  onStart : Option (AppHookContext → HookOutcome AppActionResult)
  onAfterStart : Option (AppHookContext → AppActionResult → HookOutcome Unit)
  onBeforeStop : Option (AppHookContext → HookOutcome Unit)
  onStop : Option (AppHookContext → HookOutcome AppActionResult)
  onAfterStop : Option (AppHookContext → AppActionResult → HookOutcome Unit)
  onRestart : Option (AppHookContext → HookOutcome AppActionResult)
  onBeforeDelete : Option (AppHookContext → HookOutcome Bool)
  onLocaleChange : Option (String → AppHookContext → HookOutcome Unit)
  onThemeChange : Option (Bool → String → AppHookContext → HookOutcome Unit)

/-- AppDefinition (src/src/index.ts lines 179-194). -/
structure AppDefinition where
  id : String
  name : String
  ConfigForm : Option Unit
  DetailInfo : Option Unit
  tabs : List AppTab
  actions : List AppAction
  hooks : Option AppHooks

/-- ExtensionMetadata (src/src/index.ts lines 203-222); the
`Record<string, string>` dependency map is an association list from
extension id to version range. -/
structure ExtensionMetadata where
  id : String
  name : String
  version : String
  description : String
  author : String
  homepage : Option String
  icon : Option String
  minHostVersion : Option String
  dependencies : List (String × String)

/-- AppExtensionPackage (src/src/index.ts lines 246-259).  The four
lifecycle scripts are nullary callbacks that may throw; each is embedded
directly as the outcome its single invocation would produce. -/
structure AppExtensionPackage where
  metadata : ExtensionMetadata
  appDefinition : AppDefinition
  onInstall : Option (HookOutcome Unit)
  onUninstall : Option (HookOutcome Unit)
  onActivate : Option (HookOutcome Unit)
  onDeactivate : Option (HookOutcome Unit)

/-- ExtensionSource (src/src/index.ts line 268). -/
inductive ExtensionSource where
  | local_
  | remote
  | marketplace
deriving Repr, DecidableEq

/-- ThemeMode (src/src/index.ts line 273). -/
inductive ThemeMode where
  | light
  | dark
  | system
deriving Repr, DecidableEq

/-- Modelled from the spec: the invocation events the Hook Invocation
Pipeline records for one composite action.  Each event marks the actual
invocation of a present hook; an absent hook produces no event.  The
after-phase event carries the `AppActionResult` argument the after hook
was invoked with. -/
inductive HookEvent where
  | invokedBefore
  | invokedPrimary
  | invokedAfter (arg : AppActionResult)
deriving Repr, DecidableEq

/-- Modelled from the spec: the primary phase of a composite action.  An
absent primary hook is a no-op that succeeds; a primary hook that throws
`m` synthesizes the failure result with `m` as message; a returning
primary hook's value becomes the action's result. -/
def decidePrimary
    (primary : Option (AppHookContext → HookOutcome AppActionResult))
    (ctx : AppHookContext) : AppActionResult × List HookEvent :=
  match primary with
  | none => (⟨true, none, none⟩, [])
  | some hp =>
    match hp ctx with
    | .ok r => (r, [HookEvent.invokedPrimary])
    | .throws m => (⟨false, some m, none⟩, [HookEvent.invokedPrimary])

/-- Modelled from the spec: the primary-then-after tail of a composite
action.  The after hook, when present, is invoked with the
already-decided result, and its own outcome is only logged, never
consulted for the result. -/
def runPrimaryAfter
    (primary : Option (AppHookContext → HookOutcome AppActionResult))
    (after : Option (AppHookContext → AppActionResult → HookOutcome Unit))
    (ctx : AppHookContext) : AppActionResult × List HookEvent :=
  let decided := decidePrimary primary ctx
  match after with
  | none => decided
  | some ha =>
    let logged := ha ctx decided.1
    match logged with
    | _ => (decided.1, decided.2 ++ [HookEvent.invokedAfter decided.1])

/-- Modelled from the spec: the Hook Invocation Pipeline for a composite
action (start/stop).  Phase order is strictly before, then primary, then
after; a throwing before hook aborts, short-circuiting the remaining
phases, and the action is reported as a failure carrying the thrown
reason as message; absent hooks are succeeding no-ops. -/
def runComposite
    (before : Option (AppHookContext → HookOutcome Unit))
    (primary : Option (AppHookContext → HookOutcome AppActionResult))
    (after : Option (AppHookContext → AppActionResult → HookOutcome Unit))
    (ctx : AppHookContext) : AppActionResult × List HookEvent :=
  match before with
  | none => runPrimaryAfter primary after ctx
  | some hb =>
    match hb ctx with
    | .throws m => (⟨false, some m, none⟩, [HookEvent.invokedBefore])
    | .ok _ =>
      let tail := runPrimaryAfter primary after ctx
      (tail.1, HookEvent.invokedBefore :: tail.2)

/-- Modelled from the spec: `dispatch('start', tunnel)` runs the
onBeforeStart, onStart, onAfterStart triple through the composite
pipeline. -/
def dispatchStart (hooks : AppHooks) (ctx : AppHookContext) :
    AppActionResult × List HookEvent :=
  runComposite hooks.onBeforeStart hooks.onStart hooks.onAfterStart ctx

/-- Modelled from the spec: `dispatch('stop', tunnel)` runs the
onBeforeStop, onStop, onAfterStop triple through the composite
pipeline. -/
def dispatchStop (hooks : AppHooks) (ctx : AppHookContext) :
    AppActionResult × List HookEvent :=
  runComposite hooks.onBeforeStop hooks.onStop hooks.onAfterStop ctx

/-- Modelled from the spec: `dispatch('restart', tunnel)` has only the
single onRestart phase; an absent hook is a succeeding no-op and a
throwing hook is reported as a failure with the reason as message. -/
def dispatchRestart (hooks : AppHooks) (ctx : AppHookContext) :
    AppActionResult :=
  match hooks.onRestart with
  | none => ⟨true, none, none⟩
  | some h =>
    match h ctx with
    | .ok r => r
    | .throws m => ⟨false, some m, none⟩

/-- Modelled from the spec: `dispatch('delete', tunnel)` consults the
onBeforeDelete boolean gate.  `false` vetoes the deletion; `true` or an
absent hook allows it; a throwing gate aborts the action, so the deletion
does not proceed. -/
def dispatchDelete (hooks : AppHooks) (ctx : AppHookContext) : Bool :=
  match hooks.onBeforeDelete with
  | none => true
  | some h =>
    match h ctx with
    | .ok b => b
    | .throws _ => false

/-- Modelled from the spec: one entry of the Extension Host Runtime's App
registry as seen by notification broadcast — a registered App together
with its internal enabled flag. -/
structure RegisteredAppEntry where
  app : AppDefinition
  enabled : Bool

/-- Modelled from the spec: whether a unit-returning hook invocation
completed without throwing. -/
def outcomeOk (o : HookOutcome Unit) : Bool :=
  match o with
  | .ok _ => true
  | .throws _ => false

/-- Modelled from the spec: broadcast of a theme change to every enabled
App.  Each enabled App whose onThemeChange hook is present has the hook
invoked under an isolated per-App try/catch; the returned delivery log
pairs the App id with whether its handler completed without throwing, so
one App's failure never prevents delivery to the others. -/
def broadcastThemeChange (apps : List RegisteredAppEntry) (isDark : Bool)
    (mode : String) (ctx : AppHookContext) : List (String × Bool) :=
  apps.filterMap fun e =>
    if e.enabled then
      match e.app.hooks with
      | none => none
      | some hks =>
        match hks.onThemeChange with
        | none => none
        | some h => some (e.app.id, outcomeOk (h isDark mode ctx))
    else none

/-- Modelled from the spec: broadcast of a locale change to every enabled
App, with the same isolated per-App try/catch semantics as the theme
broadcast. -/
def broadcastLocaleChange (apps : List RegisteredAppEntry) (locale : String)
    (ctx : AppHookContext) : List (String × Bool) :=
  apps.filterMap fun e =>
    if e.enabled then
      match e.app.hooks with
      | none => none
      | some hks =>
        match hks.onLocaleChange with
        | none => none
        | some h => some (e.app.id, outcomeOk (h locale ctx))
    else none

/-- Modelled from the spec: the two states of the Adapter Lifecycle
Controller's per-instance state machine. -/
inductive AdapterState where
  | unmounted
  | mounted
deriving Repr, DecidableEq

/-- Modelled from the spec: one call the controller makes to the managed
`ExtensionComponentAdapter`'s three methods. -/
inductive AdapterCall where
  | mountCall
  | updateCall
  | unmountCall
deriving Repr, DecidableEq

/-- Modelled from the spec: the programming-error failure of the Adapter
Lifecycle Controller. -/
inductive AdapterError where
  | invalidAdapterState
deriving Repr, DecidableEq

/-- Modelled from the spec: the state the Adapter Lifecycle Controller
keeps for one adapter instance: the current state-machine state and the
ordered log of calls it has made to the adapter's methods. -/
structure AdapterController where
  state : AdapterState
  calls : List AdapterCall
deriving Repr, DecidableEq

/-- Modelled from the spec: the mount transition.  On an Unmounted
instance it calls the adapter's `mount` exactly once and moves to
Mounted; on an already-Mounted instance it fails with
InvalidAdapterState without calling `mount` again. -/
def ctrlMount (c : AdapterController) : Except AdapterError AdapterController :=
  match c.state with
  | .mounted => .error .invalidAdapterState
  | .unmounted => .ok ⟨.mounted, c.calls ++ [AdapterCall.mountCall]⟩

/-- Modelled from the spec: the update transition.  On a Mounted instance
it calls the adapter's `update` and stays Mounted, never calling `mount`
again; updating an instance that is not Mounted is not a listed
transition and fails with InvalidAdapterState. -/
def ctrlUpdate (c : AdapterController) : Except AdapterError AdapterController :=
  match c.state with
  | .mounted => .ok ⟨.mounted, c.calls ++ [AdapterCall.updateCall]⟩
  | .unmounted => .error .invalidAdapterState

/-- Modelled from the spec: the unmount transition.  On a Mounted
instance it calls the adapter's `unmount` and moves to Unmounted; on an
Unmounted instance it is a no-op, not an error. -/
def ctrlUnmount (c : AdapterController) : AdapterController :=
  match c.state with
  | .mounted => ⟨.unmounted, c.calls ++ [AdapterCall.unmountCall]⟩
  | .unmounted => c

/-- Modelled from the spec: `n` successive update calls on one adapter
instance, stopping at the first failure. -/
def applyUpdates : Nat → AdapterController → Except AdapterError AdapterController
  | 0, c => .ok c
  | n + 1, c =>
    match ctrlUpdate c with
    | .error e => .error e
    | .ok c2 => applyUpdates n c2

/-- Modelled from the spec: the visible/disabled state the
Visibility/Enablement Evaluator computes for one declared tab. -/
structure TabState where
  key : String
  visible : Bool
deriving Repr, DecidableEq

/-- Modelled from the spec: the visible/disabled state the
Visibility/Enablement Evaluator computes for one declared action. -/
structure ActionState where
  key : String
  visible : Bool
  disabled : Bool
deriving Repr, DecidableEq

/-- Modelled from the spec: evaluation of one optional predicate on a
tunnel snapshot.  An absent predicate yields the default `dflt`; a
throwing predicate yields `onThrow` (hide for visibility, disable for
disablement) together with the diagnostic message; a returning predicate
yields its value. -/
def evalPredicate (p : Option (Tunnel → HookOutcome Bool)) (dflt onThrow : Bool)
    (t : Tunnel) : Bool × Option String :=
  match p with
  | none => (dflt, none)
  | some f =>
    match f t with
    | .ok b => (b, none)
    | .throws m => (onThrow, some m)

/-- Modelled from the spec: `computeTabState(appDef, tunnel)` evaluates
every declared tab's visibility predicate in declaration order; a
throwing predicate is treated as `false` (hide) and never stops the
evaluation of the remaining tabs. -/
def computeTabState (app : AppDefinition) (t : Tunnel) : List TabState :=
  app.tabs.map fun tab => ⟨tab.key, (evalPredicate tab.visible true false t).1⟩

/-- Modelled from the spec: the diagnostics `computeTabState` surfaces —
for each tab whose visibility predicate threw, the tab key paired with
the thrown message. -/
def tabDiagnostics (app : AppDefinition) (t : Tunnel) : List (String × String) :=
  app.tabs.filterMap fun tab =>
    match (evalPredicate tab.visible true false t).2 with
    | none => none
    | some m => some (tab.key, m)

/-- Modelled from the spec: `computeActionState(appDef, tunnel)` evaluates
every declared action's visible and disabled predicates in declaration
order; a throwing visible predicate hides, a throwing disabled predicate
disables, and neither stops the evaluation of the remaining actions. -/
def computeActionState (app : AppDefinition) (t : Tunnel) : List ActionState :=
  app.actions.map fun act =>
    ⟨act.key, (evalPredicate act.visible true false t).1,
      (evalPredicate act.disabled false true t).1⟩

/-- Modelled from the spec: the diagnostics `computeActionState` surfaces
for throwing visible or disabled predicates, keyed by action. -/
def actionDiagnostics (app : AppDefinition) (t : Tunnel) :
    List (String × String) :=
  app.actions.filterMap (fun act =>
    match (evalPredicate act.visible true false t).2 with
    | none => none
    | some m => some (act.key, m)) ++
  app.actions.filterMap (fun act =>
    match (evalPredicate act.disabled false true t).2 with
    | none => none
    | some m => some (act.key, m))

/-- Modelled from the spec: the Extension Package Loader's error
taxonomy for registration. -/
inductive LoadError where
  | duplicateExtension
  | missingDependency (depId : String)
  | versionMismatch (depId : String)
  | hookFailure (msg : String)
deriving Repr, DecidableEq

/-- Modelled from the spec: one registry entry of the Extension Host
Runtime — an installed package plus its internal enabled flag (flipped
later by activate/deactivate, initially off). -/
structure InstalledPackage where
  pkg : AppExtensionPackage
  enabled : Bool

/-- Modelled from the spec: one mounted-adapter binding in the runtime's
per-tunnel UI-binding table, identifying the App it is bound to and the
container it occupies. -/
structure MountedBinding where
  appId : String
  containerId : String
deriving Repr, DecidableEq

/-- Modelled from the spec: the shared state the Runtime coordinator
owns — the App registry and the table of currently mounted adapter
bindings. -/
structure RuntimeState where
  registry : List InstalledPackage
  mounted : List MountedBinding

/-- Modelled from the spec: lookup of an installed package by its
`metadata.id` registry key. -/
def findInstalled (reg : List InstalledPackage) (id : String) :
    Option InstalledPackage :=
  reg.find? fun p => p.pkg.metadata.id == id

/-- Modelled from the spec: dependency validation — every declared
dependency must already be present in the registry (else
MissingDependency) and its installed version must satisfy the declared
range under the host's compatibility relation `compat` (else
VersionMismatch); dependencies are checked in declaration order and the
first failure is reported. -/
def checkDependencies (compat : String → String → Bool)
    (reg : List InstalledPackage) :
    List (String × String) → Option LoadError
  | [] => none
  | (depId, range) :: rest =>
    match findInstalled reg depId with
    | none => some (.missingDependency depId)
    | some p =>
      if compat p.pkg.metadata.version range then
        checkDependencies compat reg rest
      else
        some (.versionMismatch depId)

/-- Modelled from the spec: `register(pkg)`.  It validates `metadata.id`
uniqueness (DuplicateExtension), then the declared dependencies
(MissingDependency / VersionMismatch), then runs `onInstall` before
marking the package installed; a failing `onInstall` surfaces as
HookFailure and leaves the registry unchanged (the error branch returns
no new state), with no retry.  On success the package is appended to the
registry with its enabled flag off. -/
def register (compat : String → String → Bool) (s : RuntimeState)
    (pkg : AppExtensionPackage) : Except LoadError RuntimeState :=
  if s.registry.any (fun p => p.pkg.metadata.id == pkg.metadata.id) then
    .error .duplicateExtension
  else
    match checkDependencies compat s.registry pkg.metadata.dependencies with
    | some e => .error e
    | none =>
      match pkg.onInstall with
      | some (.throws m) => .error (.hookFailure m)
      | _ => .ok ⟨s.registry ++ [⟨pkg, false⟩], s.mounted⟩

/-- Modelled from the spec: `unregister(id)`.  When `id` is installed, it
runs `onUninstall` best-effort (the script's outcome is only logged and
never consulted, so a failure cannot block removal), removes the package
from the registry, and unmounts every adapter binding bound to that
package's App; an unknown `id` leaves the state unchanged. -/
def unregister (s : RuntimeState) (id : String) : RuntimeState :=
  match findInstalled s.registry id with
  | none => s
  | some entry =>
    ⟨s.registry.filter (fun p => !(p.pkg.metadata.id == id)),
      s.mounted.filter (fun b => !(b.appId == entry.pkg.appDefinition.id))⟩

/-- Replaces the onBeforeStart hook of a hook map, leaving the rest. -/
def setBeforeStart (hooks : AppHooks)
    (v : Option (AppHookContext → HookOutcome Unit)) : AppHooks :=
  ⟨v, hooks.onStart, hooks.onAfterStart, hooks.onBeforeStop, hooks.onStop,
    hooks.onAfterStop, hooks.onRestart, hooks.onBeforeDelete,
    hooks.onLocaleChange, hooks.onThemeChange⟩

/-- Replaces the onStart hook of a hook map, leaving the rest. -/
def setStart (hooks : AppHooks)
    (v : Option (AppHookContext → HookOutcome AppActionResult)) : AppHooks :=
  ⟨hooks.onBeforeStart, v, hooks.onAfterStart, hooks.onBeforeStop,
    hooks.onStop, hooks.onAfterStop, hooks.onRestart, hooks.onBeforeDelete,
    hooks.onLocaleChange, hooks.onThemeChange⟩

/-- Replaces the onAfterStart hook of a hook map, leaving the rest. -/
def setAfterStart (hooks : AppHooks)
    (v : Option (AppHookContext → AppActionResult → HookOutcome Unit)) :
    AppHooks :=
  ⟨hooks.onBeforeStart, hooks.onStart, v, hooks.onBeforeStop, hooks.onStop,
    hooks.onAfterStop, hooks.onRestart, hooks.onBeforeDelete,
    hooks.onLocaleChange, hooks.onThemeChange⟩

/-- Replaces the onBeforeStop hook of a hook map, leaving the rest. -/
def setBeforeStop (hooks : AppHooks)
    (v : Option (AppHookContext → HookOutcome Unit)) : AppHooks :=
  ⟨hooks.onBeforeStart, hooks.onStart, hooks.onAfterStart, v, hooks.onStop,
    hooks.onAfterStop, hooks.onRestart, hooks.onBeforeDelete,
    hooks.onLocaleChange, hooks.onThemeChange⟩

/-- Replaces the onStop hook of a hook map, leaving the rest. -/
def setStop (hooks : AppHooks)
    (v : Option (AppHookContext → HookOutcome AppActionResult)) : AppHooks :=
  ⟨hooks.onBeforeStart, hooks.onStart, hooks.onAfterStart,
    hooks.onBeforeStop, v, hooks.onAfterStop, hooks.onRestart,
    hooks.onBeforeDelete, hooks.onLocaleChange, hooks.onThemeChange⟩

/-- Replaces the onAfterStop hook of a hook map, leaving the rest. -/
def setAfterStop (hooks : AppHooks)
    (v : Option (AppHookContext → AppActionResult → HookOutcome Unit)) :
    AppHooks :=
  ⟨hooks.onBeforeStart, hooks.onStart, hooks.onAfterStart,
    hooks.onBeforeStop, hooks.onStop, v, hooks.onRestart,
    hooks.onBeforeDelete, hooks.onLocaleChange, hooks.onThemeChange⟩

/-- Replaces the onRestart hook of a hook map, leaving the rest. -/
def setRestart (hooks : AppHooks)
    (v : Option (AppHookContext → HookOutcome AppActionResult)) : AppHooks :=
  ⟨hooks.onBeforeStart, hooks.onStart, hooks.onAfterStart,
    hooks.onBeforeStop, hooks.onStop, hooks.onAfterStop, v,
    hooks.onBeforeDelete, hooks.onLocaleChange, hooks.onThemeChange⟩

/-- Sample tunnel used by the concrete evaluations below. -/
def tunnel0 : Tunnel :=
  ⟨"t1", "demo", 1, "active", some 8080, none, none, some "app-a", none, []⟩

/-- Sample tunnel whose `type` code lies outside the documented 1..5
enumeration, yet is a perfectly well-typed Tunnel value. -/
def tunnelType6 : Tunnel :=
  ⟨"t6", "odd", 6, "active", none, none, none, none, none, []⟩

/-- Sample hook context over `tunnel0`. -/
def ctx0 : AppHookContext :=
  ⟨tunnel0, none, none, some "en", some false, some "system"⟩

/-- The empty hook map: every recognized lifecycle hook absent. -/
def noHooks : AppHooks :=
  ⟨none, none, none, none, none, none, none, none, none, none⟩

/-- Sample before-hook that throws with reason "abort". -/
def beforeThrowAbort : AppHookContext → HookOutcome Unit :=
  fun _ => .throws "abort"

/-- Sample hook map whose onBeforeStart aborts while onStart and
onAfterStart are present. -/
def hooksC1 : AppHooks :=
  ⟨some beforeThrowAbort, some (fun _ => .ok ⟨true, some "started", none⟩),
    some (fun _ _ => .ok ()), none, none, none, none, none, none, none⟩

/-- Sample successful start result. -/
def resultC2 : AppActionResult := ⟨true, some "started", none⟩

/-- Sample onStart hook returning `resultC2`. -/
def startC2 : AppHookContext → HookOutcome AppActionResult :=
  fun _ => .ok resultC2

/-- Sample hook map whose onStart succeeds and whose onAfterStart
throws. -/
def hooksC2 : AppHooks :=
  ⟨none, some startC2, some (fun _ _ => .throws "after boom"),
    none, none, none, none, none, none, none⟩

/-- Sample before-hook that throws with reason "disk full". -/
def beforeDiskFull : AppHookContext → HookOutcome Unit :=
  fun _ => .throws "disk full"

/-- Sample hook map for the disk-full abort scenario. -/
def hooksC3 : AppHooks :=
  ⟨some beforeDiskFull, some (fun _ => .ok ⟨true, none, none⟩),
    some (fun _ _ => .ok ()), none, none, none, none, none, none, none⟩

/-- Sample onBeforeDelete gate returning false. -/
def delFalse : AppHookContext → HookOutcome Bool :=
  fun _ => .ok false

/-- Sample hook map whose onBeforeDelete vetoes the deletion. -/
def hooksC4 : AppHooks :=
  ⟨none, none, none, none, none, none, none, some delFalse, none, none⟩

/-- Sample theme handler that throws. -/
def themeThrowA : Bool → String → AppHookContext → HookOutcome Unit :=
  fun _ _ _ => .throws "theme crash"

/-- Sample theme handler that completes. -/
def themeOkB : Bool → String → AppHookContext → HookOutcome Unit :=
  fun _ _ _ => .ok ()

/-- Sample App A, registered for onThemeChange with a throwing handler. -/
def appA5 : AppDefinition :=
  ⟨"appA", "A", none, none, [], [],
    some ⟨none, none, none, none, none, none, none, none, none,
      some themeThrowA⟩⟩

/-- Sample App B, registered for onThemeChange with a completing
handler. -/
def appB5 : AppDefinition :=
  ⟨"appB", "B", none, none, [], [],
    some ⟨none, none, none, none, none, none, none, none, none,
      some themeOkB⟩⟩

/-- Sample two-App registry view: A and B both enabled. -/
def appsC5 : List RegisteredAppEntry := [⟨appA5, true⟩, ⟨appB5, true⟩]

/-- Sample controller holding a Mounted adapter instance with an empty
call log. -/
def cMounted : AdapterController := ⟨.mounted, []⟩

/-- Sample controller holding an Unmounted adapter instance. -/
def cUnmounted : AdapterController := ⟨.unmounted, []⟩

/-- Sample exact-match version compatibility relation supplied by the
host. -/
def compat0 : String → String → Bool := fun v r => v == r

/-- Sample already-installed base package. -/
def basePkg : AppExtensionPackage :=
  ⟨⟨"base", "Base", "1.0.0", "base extension", "dev", none, none, none, []⟩,
    ⟨"base-app", "BaseApp", none, none, [], [], none⟩,
    none, none, none, none⟩

/-- Sample runtime state with the base package installed. -/
def regState0 : RuntimeState := ⟨[⟨basePkg, true⟩], []⟩

/-- Sample package depending on the base package whose onInstall
throws. -/
def pkgBad : AppExtensionPackage :=
  ⟨⟨"ext-two", "E2", "1.0.0", "dependent extension", "dev", none, none,
      none, [("base", "1.0.0")]⟩,
    ⟨"app-two", "AppTwo", none, none, [], [], none⟩,
    some (.throws "install failed"), none, none, none⟩

/-- Sample tab whose visibility predicate returns true. -/
def tabOk : AppTab := ⟨"tab1", "T1", "pi pi-home", none, none,
  some fun _ => .ok true⟩

/-- Sample tab whose visibility predicate throws. -/
def tabThrow : AppTab := ⟨"tab2", "T2", "pi pi-chart-line", none, none,
  some fun _ => .throws "boom"⟩

/-- Sample tab with no visibility predicate. -/
def tabPlain : AppTab := ⟨"tab3", "T3", "pi pi-cog", none, none, none⟩

/-- Sample action whose disabled predicate throws. -/
def actThrow : AppAction := ⟨"act1", "A1", "pi pi-play", some "primary",
  some (fun _ => .ok true), some fun _ => .throws "disabled boom"⟩

/-- Sample App definition exercising the evaluator. -/
def appC8 : AppDefinition :=
  ⟨"app8", "A8", none, none, [tabOk, tabThrow, tabPlain], [actThrow], none⟩

/-- Sample package whose onUninstall throws, for the round-trip. -/
def pkgC9 : AppExtensionPackage :=
  ⟨⟨"ext-one", "E1", "1.0.0", "roundtrip extension", "dev", none, none,
      none, []⟩,
    ⟨"app-one", "AppOne", none, none, [], [], none⟩,
    none, some (.throws "cleanup fail"), none, none⟩

/-- Sample runtime state before the registration round-trip: empty
registry, one adapter binding belonging to some other App. -/
def stateC9 : RuntimeState := ⟨[], [⟨"other-app", "c1"⟩]⟩

/-- Sample runtime state right after registering `pkgC9` into
`stateC9`. -/
def stateC9p : RuntimeState :=
  ⟨[⟨pkgC9, false⟩], [⟨"other-app", "c1"⟩]⟩

/-- The five tunnel kinds the contract documents for `Tunnel.type`. -/
inductive TunnelKind where
  | http
  | https
  | tcp
  | udp
  | wireGuard
deriving Repr, DecidableEq

/-- Decoding of the numeric `Tunnel.type` codes documented in the
contract: 1 HTTP, 2 HTTPS, 3 TCP, 4 UDP, 5 WireGuard; every other number
names no kind. -/
def tunnelKindOfCode (c : Int) : Option TunnelKind :=
  if c = 1 then some .http
  else if c = 2 then some .https
  else if c = 3 then some .tcp
  else if c = 4 then some .udp
  else if c = 5 then some .wireGuard
  else none

/-- The primary phase leaves either no event or exactly the primary
invocation event. -/
theorem decidePrimary_trace
    (p : Option (AppHookContext → HookOutcome AppActionResult))
    (ctx : AppHookContext) :
    (decidePrimary p ctx).2 = []
    ∨ (decidePrimary p ctx).2 = [HookEvent.invokedPrimary] := by
  rcases p with _ | hp
  · exact Or.inl rfl
  · rcases h : hp ctx with r | m <;> simp [decidePrimary, h]

/-- The primary phase never produces an after-invocation event. -/
theorem decidePrimary_no_after
    (p : Option (AppHookContext → HookOutcome AppActionResult))
    (ctx : AppHookContext) (x : AppActionResult) :
    HookEvent.invokedAfter x ∉ (decidePrimary p ctx).2 := by
  rcases decidePrimary_trace p ctx with h | h <;> simp [h]

/-- The composite tail's trace is, in order, a sublist of primary then
after with the decided result as the after argument. -/
theorem runPrimaryAfter_sublist
    (p : Option (AppHookContext → HookOutcome AppActionResult))
    (a : Option (AppHookContext → AppActionResult → HookOutcome Unit))
    (ctx : AppHookContext) :
    List.Sublist (runPrimaryAfter p a ctx).2
      [HookEvent.invokedPrimary,
        HookEvent.invokedAfter (runPrimaryAfter p a ctx).1] := by
  rcases a with _ | ha
  · show List.Sublist (decidePrimary p ctx).2 _
    rcases decidePrimary_trace p ctx with h | h <;> rw [h]
    · exact List.nil_sublist _
    · exact List.Sublist.cons₂ _ (List.nil_sublist _)
  · show List.Sublist ((decidePrimary p ctx).2 ++ [_]) _
    rcases decidePrimary_trace p ctx with h | h <;> rw [h]
    · exact List.Sublist.cons _ (List.Sublist.refl _)
    · exact List.Sublist.cons₂ _ (List.Sublist.refl _)

/-- The composite tail's result does not depend on the after hook. -/
theorem runPrimaryAfter_result_indep_after
    (p : Option (AppHookContext → HookOutcome AppActionResult))
    (a : Option (AppHookContext → AppActionResult → HookOutcome Unit))
    (ctx : AppHookContext) :
    (runPrimaryAfter p a ctx).1 = (runPrimaryAfter p none ctx).1 := by
  rcases a with _ | ha <;> rfl

/-- The composite tail's result is exactly the primary phase's decided
result. -/
theorem runPrimaryAfter_result
    (p : Option (AppHookContext → HookOutcome AppActionResult))
    (a : Option (AppHookContext → AppActionResult → HookOutcome Unit))
    (ctx : AppHookContext) :
    (runPrimaryAfter p a ctx).1 = (decidePrimary p ctx).1 := by
  rcases a with _ | ha <;> rfl

/-- An after-invocation event in the composite tail's trace carries the
decided result. -/
theorem runPrimaryAfter_after_mem
    (p : Option (AppHookContext → HookOutcome AppActionResult))
    (a : Option (AppHookContext → AppActionResult → HookOutcome Unit))
    (ctx : AppHookContext) (r : AppActionResult) :
    HookEvent.invokedAfter r ∈ (runPrimaryAfter p a ctx).2 →
    r = (runPrimaryAfter p a ctx).1 := by
  intro hmem
  rcases a with _ | ha
  · exact absurd hmem (decidePrimary_no_after p ctx r)
  · have : HookEvent.invokedAfter r ∈
        (decidePrimary p ctx).2 ++ [HookEvent.invokedAfter (decidePrimary p ctx).1] :=
      hmem
    rcases List.mem_append.mp this with h | h
    · exact absurd h (decidePrimary_no_after p ctx r)
    · have h2 : HookEvent.invokedAfter r
          = HookEvent.invokedAfter (decidePrimary p ctx).1 :=
        List.mem_singleton.mp h
      have h3 : r = (decidePrimary p ctx).1 := by
        injection h2
      exact h3.trans (runPrimaryAfter_result p (some ha) ctx).symm

/-- A before hook that throws short-circuits the composite pipeline: the
trace stops at the before event and the result is the synthesized
failure. -/
theorem runComposite_before_throws
    (hb : AppHookContext → HookOutcome Unit)
    (p : Option (AppHookContext → HookOutcome AppActionResult))
    (a : Option (AppHookContext → AppActionResult → HookOutcome Unit))
    (ctx : AppHookContext) (m : String) (h : hb ctx = HookOutcome.throws m) :
    runComposite (some hb) p a ctx
      = (⟨false, some m, none⟩, [HookEvent.invokedBefore]) := by
  simp [runComposite, h]

/-- The composite pipeline's trace is, in order, a sublist of before,
primary, after with the final result as the after argument. -/
theorem runComposite_sublist
    (b : Option (AppHookContext → HookOutcome Unit))
    (p : Option (AppHookContext → HookOutcome AppActionResult))
    (a : Option (AppHookContext → AppActionResult → HookOutcome Unit))
    (ctx : AppHookContext) :
    List.Sublist (runComposite b p a ctx).2
      [HookEvent.invokedBefore, HookEvent.invokedPrimary,
        HookEvent.invokedAfter (runComposite b p a ctx).1] := by
  rcases b with _ | hb
  · exact List.Sublist.cons _ (runPrimaryAfter_sublist p a ctx)
  · rcases h : hb ctx with u | m
    · show List.Sublist (runComposite (some hb) p a ctx).2
        [HookEvent.invokedBefore, HookEvent.invokedPrimary,
          HookEvent.invokedAfter (runComposite (some hb) p a ctx).1]
      have e : runComposite (some hb) p a ctx
          = ((runPrimaryAfter p a ctx).1,
              HookEvent.invokedBefore :: (runPrimaryAfter p a ctx).2) := by
        simp [runComposite, h]
      rw [e]
      exact List.Sublist.cons₂ _ (runPrimaryAfter_sublist p a ctx)
    · rw [runComposite_before_throws hb p a ctx m h]
      exact List.Sublist.cons₂ _ (List.nil_sublist _)

/-- The composite pipeline's result does not depend on the after hook. -/
theorem runComposite_result_indep_after
    (b : Option (AppHookContext → HookOutcome Unit))
    (p : Option (AppHookContext → HookOutcome AppActionResult))
    (a : Option (AppHookContext → AppActionResult → HookOutcome Unit))
    (ctx : AppHookContext) :
    (runComposite b p a ctx).1 = (runComposite b p none ctx).1 := by
  rcases b with _ | hb
  · exact runPrimaryAfter_result_indep_after p a ctx
  · rcases h : hb ctx with u | m <;>
      simp [runComposite, h, runPrimaryAfter_result_indep_after p a ctx]

/-- An after-invocation event in the composite trace carries the final
result. -/
theorem runComposite_after_mem
    (b : Option (AppHookContext → HookOutcome Unit))
    (p : Option (AppHookContext → HookOutcome AppActionResult))
    (a : Option (AppHookContext → AppActionResult → HookOutcome Unit))
    (ctx : AppHookContext) (r : AppActionResult) :
    HookEvent.invokedAfter r ∈ (runComposite b p a ctx).2 →
    r = (runComposite b p a ctx).1 := by
  intro hmem
  rcases b with _ | hb
  · exact runPrimaryAfter_after_mem p a ctx r hmem
  · rcases h : hb ctx with u | m
    · have e : runComposite (some hb) p a ctx
          = ((runPrimaryAfter p a ctx).1,
              HookEvent.invokedBefore :: (runPrimaryAfter p a ctx).2) := by
        simp [runComposite, h]
      rw [e] at hmem ⊢
      rcases List.mem_cons.mp hmem with h2 | h2
      · exact absurd h2 (by simp)
      · exact runPrimaryAfter_after_mem p a ctx r h2
    · rw [runComposite_before_throws hb p a ctx m h] at hmem
      simp at hmem

/-- When the primary hook returned a result and the after phase was
reached, the composite result is that returned value. -/
theorem runComposite_result_of_primary_ok
    (b : Option (AppHookContext → HookOutcome Unit))
    (hp : AppHookContext → HookOutcome AppActionResult)
    (a : Option (AppHookContext → AppActionResult → HookOutcome Unit))
    (ctx : AppHookContext) (r : AppActionResult)
    (h : hp ctx = HookOutcome.ok r)
    (hreach : ∃ x, HookEvent.invokedAfter x
        ∈ (runComposite b (some hp) a ctx).2) :
    (runComposite b (some hp) a ctx).1 = r := by
  have hdec : (decidePrimary (some hp) ctx).1 = r := by
    simp [decidePrimary, h]
  rcases b with _ | hb
  · exact (runPrimaryAfter_result (some hp) a ctx).trans hdec
  · rcases h2 : hb ctx with u | m
    · have e : runComposite (some hb) (some hp) a ctx
          = ((runPrimaryAfter (some hp) a ctx).1,
              HookEvent.invokedBefore :: (runPrimaryAfter (some hp) a ctx).2) := by
        simp [runComposite, h2]
      rw [e]
      exact (runPrimaryAfter_result (some hp) a ctx).trans hdec
    · rcases hreach with ⟨x, hx⟩
      rw [runComposite_before_throws hb (some hp) a ctx m h2] at hx
      simp at hx

/-- When the primary hook threw and the after phase was reached, the
composite result is the synthesized failure carrying the thrown
reason. -/
theorem runComposite_result_of_primary_throws
    (b : Option (AppHookContext → HookOutcome Unit))
    (hp : AppHookContext → HookOutcome AppActionResult)
    (a : Option (AppHookContext → AppActionResult → HookOutcome Unit))
    (ctx : AppHookContext) (m : String)
    (h : hp ctx = HookOutcome.throws m)
    (hreach : ∃ x, HookEvent.invokedAfter x
        ∈ (runComposite b (some hp) a ctx).2) :
    (runComposite b (some hp) a ctx).1 = ⟨false, some m, none⟩ := by
  have hdec : (decidePrimary (some hp) ctx).1 = ⟨false, some m, none⟩ := by
    simp [decidePrimary, h]
  rcases b with _ | hb
  · exact (runPrimaryAfter_result (some hp) a ctx).trans hdec
  · rcases h2 : hb ctx with u | m2
    · have e : runComposite (some hb) (some hp) a ctx
          = ((runPrimaryAfter (some hp) a ctx).1,
              HookEvent.invokedBefore :: (runPrimaryAfter (some hp) a ctx).2) := by
        simp [runComposite, h2]
      rw [e]
      exact (runPrimaryAfter_result (some hp) a ctx).trans hdec
    · rcases hreach with ⟨x, hx⟩
      rw [runComposite_before_throws hb (some hp) a ctx m2 h2] at hx
      simp at hx

/-- An absent primary hook decides the same result as a primary hook
returning the plain success result. -/
theorem runComposite_primary_noop
    (b : Option (AppHookContext → HookOutcome Unit))
    (a : Option (AppHookContext → AppActionResult → HookOutcome Unit))
    (ctx : AppHookContext) :
    (runComposite b none a ctx).1
      = (runComposite b (some fun _ => HookOutcome.ok ⟨true, none, none⟩) a ctx).1 := by
  rcases b with _ | hb
  · show (runPrimaryAfter none a ctx).1
      = (runPrimaryAfter (some fun _ => HookOutcome.ok ⟨true, none, none⟩) a ctx).1
    rw [runPrimaryAfter_result, runPrimaryAfter_result]
    rfl
  · rcases h : hb ctx with u | m <;>
      simp [runComposite, h, runPrimaryAfter_result, decidePrimary]

/-- C1: for every dispatch of a composite tunnel action (start or stop),
the pipeline invokes the hooks in the strict order onBefore*, then on*,
then onAfter* (the recorded trace is an in-order sublist of the three
phases); if the onBefore* hook throws, the on* and onAfter* hooks are
never invoked (the trace stops at the before event) and the action's
result has success = false; a hook absent from AppHooks decides the same
result as a corresponding succeeding no-op hook. -/
theorem C1_composite_phase_order (hooks : AppHooks) (ctx : AppHookContext) :
    (List.Sublist (dispatchStart hooks ctx).2
        [HookEvent.invokedBefore, HookEvent.invokedPrimary,
          HookEvent.invokedAfter (dispatchStart hooks ctx).1]
      ∧ ∀ hb m, hooks.onBeforeStart = some hb →
          hb ctx = HookOutcome.throws m →
          dispatchStart hooks ctx
            = (⟨false, some m, none⟩, [HookEvent.invokedBefore]))
    ∧ (List.Sublist (dispatchStop hooks ctx).2
        [HookEvent.invokedBefore, HookEvent.invokedPrimary,
          HookEvent.invokedAfter (dispatchStop hooks ctx).1]
      ∧ ∀ hb m, hooks.onBeforeStop = some hb →
          hb ctx = HookOutcome.throws m →
          dispatchStop hooks ctx
            = (⟨false, some m, none⟩, [HookEvent.invokedBefore]))
    ∧ ((dispatchStart (setBeforeStart hooks none) ctx).1
        = (dispatchStart
            (setBeforeStart hooks (some fun _ => HookOutcome.ok ())) ctx).1
      ∧ (dispatchStart (setStart hooks none) ctx).1
        = (dispatchStart
            (setStart hooks (some fun _ => HookOutcome.ok ⟨true, none, none⟩))
            ctx).1
      ∧ (dispatchStart (setAfterStart hooks none) ctx).1
        = (dispatchStart
            (setAfterStart hooks (some fun _ _ => HookOutcome.ok ())) ctx).1)
    ∧ ((dispatchStop (setBeforeStop hooks none) ctx).1
        = (dispatchStop
            (setBeforeStop hooks (some fun _ => HookOutcome.ok ())) ctx).1
      ∧ (dispatchStop (setStop hooks none) ctx).1
        = (dispatchStop
            (setStop hooks (some fun _ => HookOutcome.ok ⟨true, none, none⟩))
            ctx).1
      ∧ (dispatchStop (setAfterStop hooks none) ctx).1
        = (dispatchStop
            (setAfterStop hooks (some fun _ _ => HookOutcome.ok ())) ctx).1) := by
  refine ⟨⟨?_, ?_⟩, ⟨?_, ?_⟩, ⟨?_, ?_, ?_⟩, ⟨?_, ?_, ?_⟩⟩
  · exact runComposite_sublist hooks.onBeforeStart hooks.onStart
      hooks.onAfterStart ctx
  · intro hb m hbe hthrow
    show runComposite hooks.onBeforeStart hooks.onStart hooks.onAfterStart ctx
      = _
    rw [hbe]
    exact runComposite_before_throws hb hooks.onStart hooks.onAfterStart ctx
      m hthrow
  · exact runComposite_sublist hooks.onBeforeStop hooks.onStop
      hooks.onAfterStop ctx
  · intro hb m hbe hthrow
    show runComposite hooks.onBeforeStop hooks.onStop hooks.onAfterStop ctx = _
    rw [hbe]
    exact runComposite_before_throws hb hooks.onStop hooks.onAfterStop ctx
      m hthrow
  · rfl
  · exact runComposite_primary_noop hooks.onBeforeStart hooks.onAfterStart ctx
  · exact (runComposite_result_indep_after hooks.onBeforeStart hooks.onStart
      (some fun _ _ => HookOutcome.ok ()) ctx).symm
  · rfl
  · exact runComposite_primary_noop hooks.onBeforeStop hooks.onAfterStop ctx
  · exact (runComposite_result_indep_after hooks.onBeforeStop hooks.onStop
      (some fun _ _ => HookOutcome.ok ()) ctx).symm

/-- C1 witness: with an onBeforeStart hook that throws "abort" while
onStart and onAfterStart are present, the dispatch invokes only the
before hook and reports failure. -/
theorem C1_composite_phase_order_witness :
    hooksC1.onBeforeStart = some beforeThrowAbort
    ∧ beforeThrowAbort ctx0 = HookOutcome.throws "abort"
    ∧ dispatchStart hooksC1 ctx0
        = (⟨false, some "abort", none⟩, [HookEvent.invokedBefore]) :=
  ⟨rfl, rfl,
    (C1_composite_phase_order hooksC1 ctx0).1.2 beforeThrowAbort "abort"
      rfl rfl⟩

/-- C2: for every dispatch of start, the onAfterStart hook receives
exactly the AppActionResult decided for the action — the value returned
by onStart, or the synthesized failure when onStart threw — and the
decided result does not depend on the onAfterStart hook at all, so a
throwing onAfterStart never changes it. -/
theorem C2_afterStart_receives_exact_result (hooks : AppHooks)
    (ctx : AppHookContext) :
    (∀ arg, HookEvent.invokedAfter arg ∈ (dispatchStart hooks ctx).2 →
        arg = (dispatchStart hooks ctx).1)
    ∧ (∀ hp r arg, hooks.onStart = some hp → hp ctx = HookOutcome.ok r →
        HookEvent.invokedAfter arg ∈ (dispatchStart hooks ctx).2 → arg = r)
    ∧ (∀ hp m arg, hooks.onStart = some hp →
        hp ctx = HookOutcome.throws m →
        HookEvent.invokedAfter arg ∈ (dispatchStart hooks ctx).2 →
        arg = ⟨false, some m, none⟩)
    ∧ (dispatchStart hooks ctx).1
        = (dispatchStart (setAfterStart hooks none) ctx).1 := by
  refine ⟨?_, ?_, ?_, ?_⟩
  · intro arg hmem
    exact runComposite_after_mem hooks.onBeforeStart hooks.onStart
      hooks.onAfterStart ctx arg hmem
  · intro hp r arg hpe hok hmem
    simp only [dispatchStart] at hmem ⊢
    rw [hpe] at hmem
    have harg := runComposite_after_mem hooks.onBeforeStart (some hp)
      hooks.onAfterStart ctx arg hmem
    have hres := runComposite_result_of_primary_ok hooks.onBeforeStart hp
      hooks.onAfterStart ctx r hok ⟨arg, hmem⟩
    exact harg.trans hres
  · intro hp m arg hpe hthrow hmem
    simp only [dispatchStart] at hmem
    rw [hpe] at hmem
    have harg := runComposite_after_mem hooks.onBeforeStart (some hp)
      hooks.onAfterStart ctx arg hmem
    have hres := runComposite_result_of_primary_throws hooks.onBeforeStart hp
      hooks.onAfterStart ctx m hthrow ⟨arg, hmem⟩
    exact harg.trans hres
  · exact runComposite_result_indep_after hooks.onBeforeStart hooks.onStart
      hooks.onAfterStart ctx

/-- C2 witness: onStart returns `resultC2`, the throwing onAfterStart
receives exactly that value, and the decided result ignores the after
hook. -/
theorem C2_afterStart_receives_exact_result_witness :
    HookEvent.invokedAfter resultC2 ∈ (dispatchStart hooksC2 ctx0).2
    ∧ resultC2 = (dispatchStart hooksC2 ctx0).1
    ∧ (dispatchStart hooksC2 ctx0).1
        = (dispatchStart (setAfterStart hooksC2 none) ctx0).1 :=
  ⟨List.Mem.tail _ (List.Mem.head _),
    (C2_afterStart_receives_exact_result hooksC2 ctx0).1 resultC2
      (List.Mem.tail _ (List.Mem.head _)),
    (C2_afterStart_receives_exact_result hooksC2 ctx0).2.2.2⟩

/-- Equal primary-phase decisions yield equal composite dispatches. -/
theorem runComposite_congr_primary
    (b : Option (AppHookContext → HookOutcome Unit))
    (p1 p2 : Option (AppHookContext → HookOutcome AppActionResult))
    (a : Option (AppHookContext → AppActionResult → HookOutcome Unit))
    (ctx : AppHookContext)
    (h : decidePrimary p1 ctx = decidePrimary p2 ctx) :
    runComposite b p1 a ctx = runComposite b p2 a ctx := by
  have h2 : runPrimaryAfter p1 a ctx = runPrimaryAfter p2 a ctx := by
    unfold runPrimaryAfter
    rw [h]
  rcases b with _ | hb
  · exact h2
  · rcases hh : hb ctx with u | mm <;> simp [runComposite, hh, h2]

/-- C3: for start, stop and restart dispatches, a hook that throws
behaves exactly like a hook that returned success = false with the
failure reason as message; in particular a before hook throwing a reason
makes the dispatch fail with that reason as message while the primary
and after hooks are never invoked. -/
theorem C3_thrown_hook_equals_failure_result (hooks : AppHooks)
    (ctx : AppHookContext) (m : String) :
    (∀ hb, hooks.onBeforeStart = some hb →
        hb ctx = HookOutcome.throws m →
        (dispatchStart hooks ctx).1 = ⟨false, some m, none⟩
        ∧ HookEvent.invokedPrimary ∉ (dispatchStart hooks ctx).2
        ∧ ∀ x, HookEvent.invokedAfter x ∉ (dispatchStart hooks ctx).2)
    ∧ (∀ hb, hooks.onBeforeStop = some hb →
        hb ctx = HookOutcome.throws m →
        (dispatchStop hooks ctx).1 = ⟨false, some m, none⟩)
    ∧ dispatchStart (setStart hooks (some fun _ => HookOutcome.throws m)) ctx
        = dispatchStart
            (setStart hooks
              (some fun _ => HookOutcome.ok ⟨false, some m, none⟩)) ctx
    ∧ dispatchStop (setStop hooks (some fun _ => HookOutcome.throws m)) ctx
        = dispatchStop
            (setStop hooks
              (some fun _ => HookOutcome.ok ⟨false, some m, none⟩)) ctx
    ∧ dispatchRestart
          (setRestart hooks (some fun _ => HookOutcome.throws m)) ctx
        = dispatchRestart
            (setRestart hooks
              (some fun _ => HookOutcome.ok ⟨false, some m, none⟩)) ctx := by
  refine ⟨?_, ?_, ?_, ?_, ?_⟩
  · intro hb hbe hthrow
    have e : dispatchStart hooks ctx
        = (⟨false, some m, none⟩, [HookEvent.invokedBefore]) := by
      show runComposite hooks.onBeforeStart hooks.onStart hooks.onAfterStart
        ctx = _
      rw [hbe]
      exact runComposite_before_throws hb hooks.onStart hooks.onAfterStart
        ctx m hthrow
    refine ⟨by rw [e], by rw [e]; simp, fun x => by rw [e]; simp⟩
  · intro hb hbe hthrow
    have e : dispatchStop hooks ctx
        = (⟨false, some m, none⟩, [HookEvent.invokedBefore]) := by
      show runComposite hooks.onBeforeStop hooks.onStop hooks.onAfterStop
        ctx = _
      rw [hbe]
      exact runComposite_before_throws hb hooks.onStop hooks.onAfterStop
        ctx m hthrow
    rw [e]
  · exact runComposite_congr_primary hooks.onBeforeStart _ _
      hooks.onAfterStart ctx rfl
  · exact runComposite_congr_primary hooks.onBeforeStop _ _
      hooks.onAfterStop ctx rfl
  · rfl

/-- C3 witness: the spec scenario — an onBeforeStart hook throwing
"disk full" makes dispatch of start yield success = false with message
"disk full", and the primary hook is never invoked. -/
theorem C3_thrown_hook_equals_failure_result_witness :
    hooksC3.onBeforeStart = some beforeDiskFull
    ∧ beforeDiskFull ctx0 = HookOutcome.throws "disk full"
    ∧ (dispatchStart hooksC3 ctx0).1 = ⟨false, some "disk full", none⟩
    ∧ HookEvent.invokedPrimary ∉ (dispatchStart hooksC3 ctx0).2 :=
  ⟨rfl, rfl,
    ((C3_thrown_hook_equals_failure_result hooksC3 ctx0 "disk full").1
      beforeDiskFull rfl rfl).1,
    ((C3_thrown_hook_equals_failure_result hooksC3 ctx0 "disk full").1
      beforeDiskFull rfl rfl).2.1⟩

/-- C4: the onBeforeDelete boolean gate — a gate returning false vetoes
the deletion; a gate returning true, or an absent gate, allows it. -/
theorem C4_beforeDelete_gate (hooks : AppHooks) (ctx : AppHookContext) :
    (∀ h, hooks.onBeforeDelete = some h →
        (h ctx = HookOutcome.ok false → dispatchDelete hooks ctx = false)
        ∧ (h ctx = HookOutcome.ok true → dispatchDelete hooks ctx = true))
    ∧ (hooks.onBeforeDelete = none → dispatchDelete hooks ctx = true) := by
  refine ⟨?_, ?_⟩
  · intro h he
    constructor <;> intro hv <;> simp [dispatchDelete, he, hv]
  · intro he
    simp [dispatchDelete, he]

/-- C4 witness: an onBeforeDelete gate returning false makes the delete
dispatch report that the deletion must not proceed. -/
theorem C4_beforeDelete_gate_witness :
    hooksC4.onBeforeDelete = some delFalse
    ∧ delFalse ctx0 = HookOutcome.ok false
    ∧ dispatchDelete hooksC4 ctx0 = false :=
  ⟨rfl, rfl, ((C4_beforeDelete_gate hooksC4 ctx0).1 delFalse rfl).1 rfl⟩

/-- C5: locale-change and theme-change notifications reach every enabled
registered App whose hook is present: the delivery log contains that
App's entry with its handler's completion status, for any behavior
(including throwing) of the other Apps' handlers. -/
theorem C5_broadcast_isolated_delivery (apps : List RegisteredAppEntry)
    (isDark : Bool) (mode locale : String) (ctx : AppHookContext) :
    (∀ e ∈ apps, e.enabled = true →
        ∀ hks h, e.app.hooks = some hks → hks.onThemeChange = some h →
        (e.app.id, outcomeOk (h isDark mode ctx))
          ∈ broadcastThemeChange apps isDark mode ctx)
    ∧ (∀ e ∈ apps, e.enabled = true →
        ∀ hks h, e.app.hooks = some hks → hks.onLocaleChange = some h →
        (e.app.id, outcomeOk (h locale ctx))
          ∈ broadcastLocaleChange apps locale ctx) := by
  constructor
  · intro e he hen hks h hhks hh
    exact List.mem_filterMap.mpr ⟨e, he, by simp [hen, hhks, hh]⟩
  · intro e he hen hks h hhks hh
    exact List.mem_filterMap.mpr ⟨e, he, by simp [hen, hhks, hh]⟩

/-- C5 witness: the spec scenario — Apps A and B are both enabled and
registered for onThemeChange, A's handler throws, and B's handler is
still invoked and completes: the delivery log records A's failure and B's
completion. -/
theorem C5_broadcast_isolated_delivery_witness :
    ("appB", true) ∈ broadcastThemeChange appsC5 true "dark" ctx0
    ∧ broadcastThemeChange appsC5 true "dark" ctx0
        = [("appA", false), ("appB", true)] :=
  ⟨(C5_broadcast_isolated_delivery appsC5 true "dark" "en" ctx0).1
      ⟨appB5, true⟩ (List.Mem.tail _ (List.Mem.head _)) rfl
      ⟨none, none, none, none, none, none, none, none, none, some themeOkB⟩
      themeOkB rfl rfl,
    rfl⟩

/-- Repeated updates on a mounted instance stay mounted and only append
update calls to the adapter call log. -/
theorem applyUpdates_mounted (n : Nat) (calls : List AdapterCall) :
    applyUpdates n ⟨AdapterState.mounted, calls⟩
      = Except.ok ⟨AdapterState.mounted,
          calls ++ List.replicate n AdapterCall.updateCall⟩ := by
  induction n generalizing calls with
  | zero => simp [applyUpdates]
  | succ k ih =>
    show applyUpdates (k + 1) ⟨AdapterState.mounted, calls⟩ = _
    simp [applyUpdates, ctrlUpdate, ih, List.replicate_succ,
      List.append_assoc]

/-- C6: the adapter lifecycle state machine — mounting an already-Mounted
instance fails with InvalidAdapterState and the adapter's mount method is
not called again; any number of updates on a Mounted instance succeed,
keep it Mounted and never add a mount call; unmounting an Unmounted
instance is a no-op, not an error. -/
theorem C6_adapter_lifecycle (c : AdapterController) :
    (c.state = AdapterState.mounted →
        ctrlMount c = Except.error AdapterError.invalidAdapterState)
    ∧ (c.state = AdapterState.mounted → ∀ n,
        applyUpdates n c
          = Except.ok ⟨AdapterState.mounted,
              c.calls ++ List.replicate n AdapterCall.updateCall⟩)
    ∧ (c.state = AdapterState.mounted → ∀ n c2,
        applyUpdates n c = Except.ok c2 →
        c2.calls.count AdapterCall.mountCall
          = c.calls.count AdapterCall.mountCall)
    ∧ (c.state = AdapterState.unmounted → ctrlUnmount c = c) := by
  obtain ⟨st, calls⟩ := c
  refine ⟨?_, ?_, ?_, ?_⟩
  · intro h
    cases h
    rfl
  · intro h n
    cases h
    exact applyUpdates_mounted n calls
  · intro h n c2 happ
    cases h
    rw [applyUpdates_mounted n calls] at happ
    cases happ
    simp [List.count_append, List.count_replicate]
  · intro h
    cases h
    rfl

/-- C6 witness: mounting the already-Mounted sample instance fails,
two updates keep it Mounted while logging only update calls, and
unmounting the Unmounted sample instance changes nothing. -/
theorem C6_adapter_lifecycle_witness :
    ctrlMount cMounted = Except.error AdapterError.invalidAdapterState
    ∧ applyUpdates 2 cMounted
        = Except.ok ⟨AdapterState.mounted,
            [AdapterCall.updateCall, AdapterCall.updateCall]⟩
    ∧ ctrlUnmount cUnmounted = cUnmounted :=
  ⟨(C6_adapter_lifecycle cMounted).1 rfl,
    (C6_adapter_lifecycle cMounted).2.1 rfl 2,
    (C6_adapter_lifecycle cUnmounted).2.2.2 rfl⟩

/-- Any error reported by dependency checking is a missing dependency or
a version mismatch. -/
theorem checkDependencies_forms (compat : String → String → Bool)
    (reg : List InstalledPackage) :
    ∀ deps e, checkDependencies compat reg deps = some e →
    (∃ d, e = LoadError.missingDependency d)
    ∨ (∃ d, e = LoadError.versionMismatch d) := by
  intro deps
  induction deps with
  | nil =>
    intro e h
    simp [checkDependencies] at h
  | cons dr rest ih =>
    intro e h
    obtain ⟨d, rg⟩ := dr
    cases hf : findInstalled reg d with
    | none =>
      simp [checkDependencies, hf] at h
      exact Or.inl ⟨d, h.symm⟩
    | some p =>
      by_cases hc : compat p.pkg.metadata.version rg = true
      · simp [checkDependencies, hf, hc] at h
        exact ih e h
      · have hc2 : compat p.pkg.metadata.version rg = false := by
          simpa using hc
        simp [checkDependencies, hf, hc2] at h
        exact Or.inr ⟨d, h.symm⟩

/-- A declared dependency that is absent or version-incompatible makes
dependency checking report an error. -/
theorem checkDependencies_bad_some (compat : String → String → Bool)
    (reg : List InstalledPackage) :
    ∀ deps (d rg : String), (d, rg) ∈ deps →
    (findInstalled reg d = none
      ∨ ∃ p, findInstalled reg d = some p
          ∧ compat p.pkg.metadata.version rg = false) →
    ∃ e, checkDependencies compat reg deps = some e := by
  intro deps
  induction deps with
  | nil =>
    intro d rg h
    simp at h
  | cons dr rest ih =>
    intro d rg hmem hbad
    obtain ⟨d0, rg0⟩ := dr
    cases hf : findInstalled reg d0 with
    | none => exact ⟨LoadError.missingDependency d0,
        by simp [checkDependencies, hf]⟩
    | some p =>
      by_cases hc : compat p.pkg.metadata.version rg0 = true
      · rcases List.mem_cons.mp hmem with heq | hrest
        · exfalso
          have hd : d = d0 := congrArg Prod.fst heq
          have hr : rg = rg0 := congrArg Prod.snd heq
          subst hd
          subst hr
          rcases hbad with hnone | ⟨q, hq, hqc⟩
          · rw [hf] at hnone
            exact Option.noConfusion hnone
          · rw [hf] at hq
            cases hq
            rw [hc] at hqc
            exact Bool.noConfusion hqc
        · obtain ⟨e, he⟩ := ih d rg hrest hbad
          exact ⟨e, by simp [checkDependencies, hf, hc, he]⟩
      · have hc2 : compat p.pkg.metadata.version rg0 = false := by
          simpa using hc
        exact ⟨LoadError.versionMismatch d0,
          by simp [checkDependencies, hf, hc2]⟩

/-- C7: registration validation — a registry that already holds the
package id yields DuplicateExtension; with a fresh id, an absent or
version-incompatible declared dependency yields MissingDependency or
VersionMismatch; and with validation passing, a throwing onInstall
surfaces as HookFailure and produces no new registry state. -/
theorem C7_register_validation (compat : String → String → Bool)
    (s : RuntimeState) (pkg : AppExtensionPackage) :
    (s.registry.any (fun p => p.pkg.metadata.id == pkg.metadata.id) = true →
        register compat s pkg = Except.error LoadError.duplicateExtension)
    ∧ (s.registry.any (fun p => p.pkg.metadata.id == pkg.metadata.id)
          = false →
        ∀ d rg, (d, rg) ∈ pkg.metadata.dependencies →
        (findInstalled s.registry d = none
          ∨ ∃ p, findInstalled s.registry d = some p
              ∧ compat p.pkg.metadata.version rg = false) →
        ∃ e, register compat s pkg = Except.error e
          ∧ ((∃ d2, e = LoadError.missingDependency d2)
            ∨ (∃ d2, e = LoadError.versionMismatch d2)))
    ∧ (∀ m, s.registry.any (fun p => p.pkg.metadata.id == pkg.metadata.id)
          = false →
        checkDependencies compat s.registry pkg.metadata.dependencies
          = none →
        pkg.onInstall = some (HookOutcome.throws m) →
        register compat s pkg
          = Except.error (LoadError.hookFailure m)) := by
  refine ⟨?_, ?_, ?_⟩
  · intro h
    simp [register, h]
  · intro h d rg hmem hbad
    obtain ⟨e, he⟩ := checkDependencies_bad_some compat s.registry
      pkg.metadata.dependencies d rg hmem hbad
    refine ⟨e, ?_,
      checkDependencies_forms compat s.registry pkg.metadata.dependencies
        e he⟩
    simp [register, h, he]
  · intro m h hdeps hinst
    simp [register, h, hdeps, hinst]

/-- C7 witness: a dependent package whose onInstall throws is rejected
with HookFailure carrying the script's reason. -/
theorem C7_register_validation_witness :
    pkgBad.onInstall = some (HookOutcome.throws "install failed")
    ∧ register compat0 regState0 pkgBad
        = Except.error (LoadError.hookFailure "install failed") :=
  ⟨rfl,
    (C7_register_validation compat0 regState0 pkgBad).2.2 "install failed"
      rfl rfl rfl⟩

/-- C8: the evaluator walks tabs and actions in declaration order — the
computed states list the declared keys in order, every entry is present —
and a throwing visible predicate yields visible = false (a throwing
disabled predicate yields disabled = true) for exactly that entry, with
the thrown reason surfaced among the diagnostics. -/
theorem C8_evaluator_order_and_isolation (app : AppDefinition)
    (t : Tunnel) :
    ((computeTabState app t).map TabState.key = app.tabs.map AppTab.key)
    ∧ ((computeActionState app t).map ActionState.key
        = app.actions.map AppAction.key)
    ∧ (∀ tab ∈ app.tabs, ∀ f m, tab.visible = some f →
        f t = HookOutcome.throws m →
        (⟨tab.key, false⟩ : TabState) ∈ computeTabState app t
        ∧ (tab.key, m) ∈ tabDiagnostics app t)
    ∧ (∀ act ∈ app.actions, ∀ f m, act.visible = some f →
        f t = HookOutcome.throws m →
        (⟨act.key, false, (evalPredicate act.disabled false true t).1⟩
            : ActionState) ∈ computeActionState app t
        ∧ (act.key, m) ∈ actionDiagnostics app t)
    ∧ (∀ act ∈ app.actions, ∀ f m, act.disabled = some f →
        f t = HookOutcome.throws m →
        (⟨act.key, (evalPredicate act.visible true false t).1, true⟩
            : ActionState) ∈ computeActionState app t
        ∧ (act.key, m) ∈ actionDiagnostics app t) := by
  refine ⟨?_, ?_, ?_, ?_, ?_⟩
  · simp only [computeTabState, List.map_map]
    rfl
  · simp only [computeActionState, List.map_map]
    rfl
  · intro tab htab f m hv ht
    constructor
    · exact List.mem_map.mpr ⟨tab, htab, by simp [evalPredicate, hv, ht]⟩
    · exact List.mem_filterMap.mpr ⟨tab, htab, by simp [evalPredicate, hv, ht]⟩
  · intro act hact f m hv ht
    constructor
    · exact List.mem_map.mpr ⟨act, hact, by simp [evalPredicate, hv, ht]⟩
    · exact List.mem_append_left _
        (List.mem_filterMap.mpr ⟨act, hact, by simp [evalPredicate, hv, ht]⟩)
  · intro act hact f m hd ht
    constructor
    · exact List.mem_map.mpr ⟨act, hact, by simp [evalPredicate, hd, ht]⟩
    · exact List.mem_append_right _
        (List.mem_filterMap.mpr ⟨act, hact, by simp [evalPredicate, hd, ht]⟩)

/-- C8 witness: the sample App whose second tab's visibility predicate
throws "boom" still yields an entry for that tab — hidden — and the
reason appears among the diagnostics. -/
theorem C8_evaluator_order_and_isolation_witness :
    (⟨"tab2", false⟩ : TabState) ∈ computeTabState appC8 tunnel0
    ∧ ("tab2", "boom") ∈ tabDiagnostics appC8 tunnel0 :=
  ⟨((C8_evaluator_order_and_isolation appC8 tunnel0).2.2.1 tabThrow
      (List.Mem.tail _ (List.Mem.head _)) (fun _ => HookOutcome.throws "boom")
      "boom" rfl rfl).1,
    ((C8_evaluator_order_and_isolation appC8 tunnel0).2.2.1 tabThrow
      (List.Mem.tail _ (List.Mem.head _)) (fun _ => HookOutcome.throws "boom")
      "boom" rfl rfl).2⟩

/-- Searching an appended list starts over in the second part when the
first part has no match. -/
theorem find_append_of_none {α : Type} (p : α → Bool) (l1 l2 : List α)
    (h : l1.find? p = none) : (l1 ++ l2).find? p = l2.find? p := by
  induction l1 with
  | nil => rfl
  | cons x xs ih =>
    rw [List.cons_append]
    cases hx : p x with
    | true => simp [List.find?_cons, hx] at h
    | false =>
      simp only [List.find?_cons, hx] at h ⊢
      exact ih h

/-- C9: registering a package into a state with no stale bindings to its
App and then unregistering it restores the state exactly — the registry
loses all trace of the package (the removal ignoring the best-effort
onUninstall outcome) and no adapter remains bound to its App. -/
theorem C9_register_unregister_roundtrip (compat : String → String → Bool)
    (s s2 : RuntimeState) (pkg : AppExtensionPackage)
    (hreg : register compat s pkg = Except.ok s2)
    (hmb : ∀ b ∈ s.mounted, b.appId ≠ pkg.appDefinition.id) :
    unregister s2 pkg.metadata.id = s
    ∧ ∀ b ∈ (unregister s2 pkg.metadata.id).mounted,
        b.appId ≠ pkg.appDefinition.id := by
  by_cases hany : s.registry.any
      (fun p => p.pkg.metadata.id == pkg.metadata.id) = true
  · simp [register, hany] at hreg
  · have hany2 : s.registry.any
        (fun p => p.pkg.metadata.id == pkg.metadata.id) = false := by
      simpa using hany
    cases hc : checkDependencies compat s.registry
        pkg.metadata.dependencies with
    | some e => simp [register, hany2, hc] at hreg
    | none =>
      have hs2 : s2 = ⟨s.registry ++ [⟨pkg, false⟩], s.mounted⟩ := by
        cases hinst : pkg.onInstall with
        | none =>
          simp [register, hany2, hc, hinst] at hreg
          exact hreg.symm
        | some o =>
          cases o with
          | ok u =>
            simp [register, hany2, hc, hinst] at hreg
            exact hreg.symm
          | throws m => simp [register, hany2, hc, hinst] at hreg
      subst hs2
      have hall : ∀ x ∈ s.registry,
          (x.pkg.metadata.id == pkg.metadata.id) = false := by
        intro x hx
        cases hxb : (x.pkg.metadata.id == pkg.metadata.id) with
        | false => rfl
        | true =>
          exact absurd (List.any_eq_true.mpr ⟨x, hx, hxb⟩)
            (by rw [hany2]; exact Bool.false_ne_true)
      have hfind1 : s.registry.find?
          (fun p => p.pkg.metadata.id == pkg.metadata.id) = none :=
        List.find?_eq_none.mpr fun x hx => by simp [hall x hx]
      have hfind : findInstalled (s.registry ++ [⟨pkg, false⟩])
          pkg.metadata.id = some ⟨pkg, false⟩ := by
        unfold findInstalled
        rw [find_append_of_none _ _ _ hfind1]
        simp [List.find?_cons]
      have hr : (s.registry ++ [(⟨pkg, false⟩ : InstalledPackage)]).filter
          (fun p => !(p.pkg.metadata.id == pkg.metadata.id))
            = s.registry := by
        rw [List.filter_append]
        have hr1 : s.registry.filter
            (fun p => !(p.pkg.metadata.id == pkg.metadata.id))
              = s.registry :=
          List.filter_eq_self.mpr fun x hx => by simp [hall x hx]
        have hr2 : ([(⟨pkg, false⟩ : InstalledPackage)]).filter
            (fun p => !(p.pkg.metadata.id == pkg.metadata.id)) = [] := by
          simp
        rw [hr1, hr2, List.append_nil]
      have hmt : s.mounted.filter
          (fun b => !(b.appId == pkg.appDefinition.id)) = s.mounted :=
        List.filter_eq_self.mpr fun b hb => by
          simp [hmb b hb]
      have h1 : unregister ⟨s.registry ++ [⟨pkg, false⟩], s.mounted⟩
          pkg.metadata.id = s := by
        have e : unregister ⟨s.registry ++ [⟨pkg, false⟩], s.mounted⟩
            pkg.metadata.id
              = ⟨(s.registry ++ [(⟨pkg, false⟩ : InstalledPackage)]).filter
                  (fun p => !(p.pkg.metadata.id == pkg.metadata.id)),
                s.mounted.filter
                  (fun b => !(b.appId == pkg.appDefinition.id))⟩ := by
          unfold unregister
          rw [hfind]
        rw [e, hr, hmt]
      exact ⟨h1, by rw [h1]; exact hmb⟩

/-- C9 witness: registering the sample package (whose onUninstall
throws) into the sample state and unregistering it restores the state
exactly, stale-free bindings untouched. -/
theorem C9_register_unregister_roundtrip_witness :
    register compat0 stateC9 pkgC9 = Except.ok stateC9p
    ∧ unregister stateC9p "ext-one" = stateC9 :=
  ⟨rfl,
    (C9_register_unregister_roundtrip compat0 stateC9 stateC9p pkgC9 rfl
      (by decide)).1⟩

/-- C10 counterexample: the claim that every Tunnel's type code lies in
the 1..5 enumeration is false on the contract — `tunnelType6` is a
well-typed Tunnel whose type code is 6. -/
theorem C10_counterexample :
    ¬ ∀ tn : Tunnel, 1 ≤ tn.type ∧ tn.type ≤ 5 := by
  intro h
  have h6 : (6 : Int) ≤ 5 := (h tunnelType6).2
  exact absurd h6 (by decide)

/-- C10 amended: the contract's documentation maps the numeric codes
1..5 — and exactly those — onto the five tunnel kinds, covering all five
kinds; but the declared field is an unconstrained number, so Tunnel
values such as `tunnelType6` carry codes naming no kind. -/
theorem C10_type_code_enumeration (c : Int) :
    ((tunnelKindOfCode c).isSome ↔ (1 ≤ c ∧ c ≤ 5))
    ∧ (∀ k : TunnelKind, ∃ c2 : Int, tunnelKindOfCode c2 = some k)
    ∧ tunnelKindOfCode tunnelType6.type = none := by
  refine ⟨?_, ?_, ?_⟩
  · unfold tunnelKindOfCode
    split_ifs with h1 h2 h3 h4 h5 <;> simp <;> omega
  · intro k
    cases k with
    | http => exact ⟨1, rfl⟩
    | https => exact ⟨2, rfl⟩
    | tcp => exact ⟨3, rfl⟩
    | udp => exact ⟨4, rfl⟩
    | wireGuard => exact ⟨5, rfl⟩
  · rfl

/-- C10 amended claim witness: code 3 names a kind, via the
characterization of the defined codes. -/
theorem C10_type_code_enumeration_witness :
    (tunnelKindOfCode 3).isSome :=
  (C10_type_code_enumeration 3).1.mpr (by decide)

end YatExt
